import Mathlib

/-!
# Verification of the proxy-server cache core (main.go)

Shallow embedding of the Go program in `main.go` of the
`vishal-android-freak/proxy-server` repository.

Modelling conventions:
* a byte is a `Nat` (meaningful values are `< 256`);
* a `time.Time` / `time.Duration` is an `Int` (one tick = one nanosecond in Go;
  the unit is irrelevant to the program's logic, which only subtracts and
  compares); `time.Since(t)` at current time `now` is `now - t`;
* the cache directory is a finite association list from file name to file
  contents (`FileSys`); directory listings have pairwise-distinct names, as on
  a real file system;
* Go standard-library serialization (`encoding/json` of `CacheItem` and
  `compress/gzip`) is modelled executably: the JSON object layout
  `{"data":"...","timestamp":...}` is kept, with the `[]byte` field rendered
  as a hex string (standing in for Go's base64 rendering of `[]byte`) and the
  `time.Time` field rendered as a decimal integer (standing in for RFC 3339);
  the gzip layer is modelled as its magic header plus the uncompressed stream,
  preserving the two properties the program relies on: compression is
  lossless, and a stream without a valid gzip header fails to decompress;
* fallible OS calls that depend on the outside world (`os.Create` failing,
  `os.Remove` failing, the upstream HTTP call, `http.NewRequest`,
  `io.ReadAll`) are driven by explicit oracle inputs.
-/

/-- Go struct `CacheItem` (main.go lines 22-25): the JSON-serialized record
stored in each cache file. `data` is the response body bytes, `timestamp`
the time of the write. -/
structure CacheItem where
  data : List Nat
  timestamp : Int
deriving DecidableEq, Repr

/-- Go struct `ProxyCache` (main.go lines 27-31), minus the lock (`sync.RWMutex`),
which has no sequential semantics. -/
structure ProxyCache where
  cacheDir : String
  ttl : Int
deriving DecidableEq, Repr

/-- The cache directory: an association list from file name to file bytes. -/
abbrev FileSys := List (String × List Nat)

/-- Model of `os.Open` plus reading a whole file: directory lookup by name. -/
def fsLookup (fs : FileSys) (path : String) : Option (List Nat) :=
  (fs.find? (fun kv => kv.1 == path)).map (fun kv => kv.2)

/-- Model of `os.Remove`: drop the file with the given name. -/
def fsErase (fs : FileSys) (path : String) : FileSys :=
  fs.filter (fun kv => !(kv.1 == path))

/-- Model of `os.Create` plus write: truncate/replace any existing file of that name. -/
def fsInsert (fs : FileSys) (path : String) (bytes : List Nat) : FileSys :=
  (path, bytes) :: fsErase fs path

/-- UTF-8 bytes of a string, modelled as the list of code points (agrees with
UTF-8 on ASCII, and is likewise injective). -/
def strBytes (s : String) : List Nat :=
  s.data.map Char.toNat

/-- Lowercase hex digit character code for a nibble (`0`-`9`, `a`-`f`). -/
def hexDigitChar (n : Nat) : Nat :=
  if n < 10 then 48 + n else 87 + n

/-- Hex rendering of a byte list, two characters per byte (models the
injective text rendering Go applies to a `[]byte` JSON field). -/
def hexOfBytes : List Nat → List Nat
  | [] => []
  | b :: rest => hexDigitChar (b / 16) :: hexDigitChar (b % 16) :: hexOfBytes rest

/-- Is this character code a lowercase hex digit? -/
def isHexDigit (c : Nat) : Bool :=
  decide (48 ≤ c ∧ c ≤ 57) || decide (97 ≤ c ∧ c ≤ 102)

/-- Numeric value of a hex digit character code. -/
def hexVal (c : Nat) : Nat :=
  if c ≤ 57 then c - 48 else c - 87

/-- Parse a hex character list back into bytes; fails on a non-hex character
or an odd-length list. -/
def bytesOfHex : List Nat → Option (List Nat)
  | [] => some []
  | c1 :: c2 :: rest =>
      if isHexDigit c1 && isHexDigit c2 then
        (bytesOfHex rest).map (fun bs => (hexVal c1 * 16 + hexVal c2) :: bs)
      else
        none
  | [_] => none

/-- Is this character code a decimal digit? -/
def isDigit (c : Nat) : Bool :=
  decide (48 ≤ c ∧ c ≤ 57)

/-- Decimal rendering of a natural number as character codes. -/
def natDecimal (n : Nat) : List Nat :=
  if n = 0 then [48] else ((Nat.digits 10 n).map (fun d => d + 48)).reverse

/-- Decimal rendering of an integer (with a leading minus sign when negative). -/
def intDecimal (t : Int) : List Nat :=
  if t < 0 then 45 :: natDecimal t.natAbs else natDecimal t.natAbs

/-- Parse a run of decimal digits from the front of the list; fails when the
list does not start with a digit. -/
def parseNatFrom (bs : List Nat) : Option (Nat × List Nat) :=
  let p := bs.span isDigit
  if p.1 = [] then none
  else some (Nat.ofDigits 10 ((p.1.map (fun c => c - 48)).reverse), p.2)

/-- Parse an optionally-signed decimal integer from the front of the list. -/
def parseIntFrom (bs : List Nat) : Option (Int × List Nat) :=
  match bs with
  | [] => none
  | c :: rest =>
      if c = 45 then
        (parseNatFrom rest).map (fun p => (-(p.1 : Int), p.2))
      else
        (parseNatFrom bs).map (fun p => ((p.1 : Int), p.2))

/-- Match an expected literal prefix, returning the remainder. -/
def dropLit : List Nat → List Nat → Option (List Nat)
  | [], bs => some bs
  | _ :: _, [] => none
  | a :: p, b :: bs => if a = b then dropLit p bs else none

/-- Model of `json.Encoder.Encode` of a `CacheItem` (main.go line 164): the object
`{"data":"<bytes>","timestamp":<time>}` followed by the encoder's newline. -/
def jsonEncodeItem (it : CacheItem) : List Nat :=
  strBytes "\x7b\"data\":\"" ++ hexOfBytes it.data ++
    strBytes "\",\"timestamp\":" ++ intDecimal it.timestamp ++
    strBytes "\x7d" ++ [10]

/-- Model of `json.Decoder.Decode` into a `CacheItem` (main.go line 104): parse the
object layout produced by `jsonEncodeItem`; any other input is a decode
error (`none`). -/
def jsonDecodeItem (bs : List Nat) : Option CacheItem := do
  let r1 ← dropLit (strBytes "\x7b\"data\":\"") bs
  let h := r1.span isHexDigit
  let data ← bytesOfHex h.1
  let r2 ← dropLit (strBytes "\",\"timestamp\":") h.2
  let (ts, r3) ← parseIntFrom r2
  let r4 ← dropLit (strBytes "\x7d") r3
  let r5 ← dropLit [10] r4
  if r5 = [] then some ⟨data, ts⟩ else none

/-- The three magic/header bytes opening every gzip stream. -/
def gzipMagic : List Nat := [31, 139, 8]

/-- Model of `gzip.NewWriter` + `Write` + `Close`, rendered as the gzip framing around
the (losslessly compressed) byte stream. -/
def gzipCompress (bs : List Nat) : List Nat :=
  gzipMagic ++ bs

/-- Model of `gzip.NewReader` plus read-to-end: check the gzip header and recover the
compressed stream; a stream without the header is a gzip format error. -/
def gzipDecompress : List Nat → Option (List Nat)
  | 31 :: 139 :: 8 :: rest => some rest
  | _ => none

/-- The full write pipeline of `ProxyCache.set` (main.go lines 156-164):
JSON-encode the item, gzip the result. -/
def encodeCacheFile (it : CacheItem) : List Nat :=
  gzipCompress (jsonEncodeItem it)

/-- The full read pipeline of `ProxyCache.readCacheFile` on the bytes of an
existing file (main.go lines 97-108): un-gzip, then JSON-decode. -/
def decodeCacheFile (bs : List Nat) : Option CacheItem :=
  (gzipDecompress bs).bind jsonDecodeItem

/-! ## SHA-256 (Go `crypto/sha256`), over byte lists -/

/-- Truncate to a 32-bit word. -/
def w32 (x : Nat) : Nat := x % 4294967296

/-- Right rotation within 32 bits. -/
def rotr32 (n x : Nat) : Nat :=
  w32 ((x >>> n) ||| (x <<< (32 - n)))

/-- The 64 SHA-256 round constants. -/
def sha256K : List Nat :=
  [1116352408, 1899447441, 3049323471, 3921009573, 961987163, 1508970993,
   2453635748, 2870763221, 3624381080, 310598401, 607225278, 1426881987,
   1925078388, 2162078206, 2614888103, 3248222580, 3835390401, 4022224774,
   264347078, 604807628, 770255983, 1249150122, 1555081692, 1996064986,
   2554220882, 2821834349, 2952996808, 3210313671, 3336571891, 3584528711,
   113926993, 338241895, 666307205, 773529912, 1294757372, 1396182291,
   1695183700, 1986661051, 2177026350, 2456956037, 2730485921, 2820302411,
   3259730800, 3345764771, 3516065817, 3600352804, 4094571909, 275423344,
   430227734, 506948616, 659060556, 883997877, 958139571, 1322822218,
   1537002063, 1747873779, 1955562222, 2024104815, 2227730452, 2361852424,
   2428436474, 2756734187, 3204031479, 3329325298]

/-- The initial SHA-256 hash state. -/
def sha256Init : List Nat :=
  [1779033703, 3144134277, 1013904242, 2773480762,
   1359893119, 2600822924, 528734635, 1541459225]

/-- Group a byte list into big-endian 32-bit words (drops a trailing
incomplete group; the padded message length is a multiple of 4). -/
def bytesToWords : List Nat → List Nat
  | b0 :: b1 :: b2 :: b3 :: rest =>
      (((b0 * 256 + b1) * 256 + b2) * 256 + b3) :: bytesToWords rest
  | _ => []

/-- Big-endian rendering of a number into the given count of bytes. -/
def beBytes : Nat → Nat → List Nat
  | 0, _ => []
  | k + 1, n => beBytes k (n / 256) ++ [n % 256]

/-- Extend a 16-word message block to the 64-word schedule, appending the
given number of words. -/
def extendW : Nat → List Nat → List Nat
  | 0, ws => ws
  | k + 1, ws =>
      let n := ws.length
      let w15 := ws.getD (n - 15) 0
      let w2 := ws.getD (n - 2) 0
      let s0 := w32 ((rotr32 7 w15) ^^^ (rotr32 18 w15) ^^^ (w15 >>> 3))
      let s1 := w32 ((rotr32 17 w2) ^^^ (rotr32 19 w2) ^^^ (w2 >>> 10))
      extendW k (ws ++ [w32 (ws.getD (n - 16) 0 + s0 + ws.getD (n - 7) 0 + s1)])

/-- One SHA-256 compression round on the eight-word working state. -/
def sha256Round (state : List Nat) (kw : Nat × Nat) : List Nat :=
  match state with
  | [a, b, c, d, e, f, g, h] =>
      let s1 := w32 ((rotr32 6 e) ^^^ (rotr32 11 e) ^^^ (rotr32 25 e))
      let ch := w32 ((e &&& f) ^^^ ((e ^^^ 4294967295) &&& g))
      let t1 := w32 (h + s1 + ch + kw.1 + kw.2)
      let s0 := w32 ((rotr32 2 a) ^^^ (rotr32 13 a) ^^^ (rotr32 22 a))
      let maj := w32 ((a &&& b) ^^^ (a &&& c) ^^^ (b &&& c))
      let t2 := w32 (s0 + maj)
      [w32 (t1 + t2), a, b, c, w32 (d + t1), e, f, g]
  | other => other

/-- Process one 64-byte chunk into the running hash state. -/
def processChunk (hstate chunk : List Nat) : List Nat :=
  let ws := extendW 48 (bytesToWords chunk)
  let fin := (sha256K.zip ws).foldl sha256Round hstate
  (hstate.zip fin).map (fun p => w32 (p.1 + p.2))

/-- SHA-256 padding: `0x80`, zeros to 56 mod 64, then the bit length as a
big-endian 64-bit number. -/
def sha256Pad (msg : List Nat) : List Nat :=
  msg ++ [128] ++ List.replicate ((119 - msg.length % 64) % 64) 0 ++
    beBytes 8 (8 * msg.length)

/-- Fold the hash state over the given number of 64-byte chunks. -/
def sha256Chunks : Nat → List Nat → List Nat → List Nat
  | 0, h, _ => h
  | k + 1, h, msg => sha256Chunks k (processChunk h (msg.take 64)) (msg.drop 64)

/-- The 32-byte SHA-256 digest of a byte list (`h.Sum(nil)` in main.go
line 115). -/
def sha256Bytes (msg : List Nat) : List Nat :=
  let padded := sha256Pad msg
  (sha256Chunks (padded.length / 64) sha256Init padded).foldr
    (fun w acc => beBytes 4 w ++ acc) []

/-- Model of `hex.EncodeToString(h.Sum(nil))`: the lowercase-hex digest string. -/
def sha256hex (msg : List Nat) : String :=
  String.mk ((hexOfBytes (sha256Bytes msg)).map Char.ofNat)

/-! ## The cache operations (main.go) -/

/-- Request headers / `http.Header`: a finite multi-map rendered as an
association list (key, values). -/
abbrev GoHeader := List (String × List String)

/-- Embedding of `ProxyCache.getCacheKey` (main.go lines 111-116): SHA-256 over the method
string written into the hash followed by the URL string, hex-encoded. The
`headers` parameter is accepted and unused, exactly as in the source. -/
def ProxyCache.getCacheKey (_pc : ProxyCache) (method url : String)
    (_headers : GoHeader) : String :=
  sha256hex (strBytes method ++ strBytes url)

/-- Embedding of `ProxyCache.getCachePath` (main.go lines 118-120):
`filepath.Join(cacheDir, key + ".gz")`. -/
def ProxyCache.getCachePath (pc : ProxyCache) (key : String) : String :=
  pc.cacheDir ++ "/" ++ key ++ ".gz"

/-- The error classes a cache read can produce, mirroring which Go error the
source inspects: `notExist` is the `os.Open` error satisfying
`os.IsNotExist`; `gzipErr` and `jsonErr` are the decode failures; `createErr`
is a failed `os.Create` during `set`. -/
inductive IOErr where
  | notExist
  | gzipErr
  | jsonErr
  | createErr
deriving DecidableEq, Repr

/-- A display string for each modelled error (Go error messages vary; only
identity matters to the program, which formats them with `%v`). -/
def ioErrMsg : IOErr → String
  | .notExist => "open: no such file or directory"
  | .gzipErr => "gzip: invalid header"
  | .jsonErr => "invalid character"
  | .createErr => "create: permission denied"

/-- Embedding of `ProxyCache.readCacheFile` (main.go lines 90-109): open the file, build a
gzip reader over it, JSON-decode the stream. -/
def readCacheFile (fs : FileSys) (path : String) : Except IOErr CacheItem :=
  match fsLookup fs path with
  | none => .error .notExist
  | some bs =>
      match gzipDecompress bs with
      | none => .error .gzipErr
      | some plain =>
          match jsonDecodeItem plain with
          | none => .error .jsonErr
          | some it => .ok it

/-- Embedding of `ProxyCache.get` (main.go lines 122-143). Returns the Go triple
`([]byte, bool, error)` (a nil slice is `[]`) together with the directory
after the call (an expired entry is removed on the way out). `now` is the
value of `time.Now()` during the call. -/
def ProxyCache.get (pc : ProxyCache) (fs : FileSys) (now : Int) (key : String) :
    (List Nat × Bool × Option IOErr) × FileSys :=
  let path := pc.getCachePath key
  match readCacheFile fs path with
  | .error e =>
      if e = .notExist then (([], false, none), fs)
      else (([], false, some e), fs)
  | .ok it =>
      if now - it.timestamp > pc.ttl then
        (([], false, none), fsErase fs path)
      else
        ((it.data, true, none), fs)

/-- Embedding of `ProxyCache.set` (main.go lines 145-165). `createFails` is the oracle for
the `os.Create` call failing; on success the file is created/truncated and
the gzipped JSON encoding of `(data, now)` is written. `now` is the value of
`time.Now()` during the call. -/
def ProxyCache.set (pc : ProxyCache) (fs : FileSys) (now : Int) (key : String)
    (data : List Nat) (createFails : Bool) : Option IOErr × FileSys :=
  let path := pc.getCachePath key
  if createFails then (some .createErr, fs)
  else (none, fsInsert fs path (encodeCacheFile ⟨data, now⟩))

/-- Embedding of `ProxyCache.cleanExpiredCache` (main.go lines 57-88), acting on the
directory listing (`os.ReadDir` snapshot; names are distinct, subdirectories
are skipped and our model directory holds only plain files). `rmFails name`
is the oracle for `os.Remove` failing on that file. A file that fails to
read is logged and kept; a stale file is removed unless `os.Remove` fails,
in which case it is logged and kept; every other file is untouched. -/
def ProxyCache.cleanExpiredCache (pc : ProxyCache) (now : Int)
    (rmFails : String → Bool) : FileSys → FileSys
  | [] => []
  | (name, bs) :: rest =>
      match decodeCacheFile bs with
      | none => (name, bs) :: pc.cleanExpiredCache now rmFails rest
      | some it =>
          if now - it.timestamp > pc.ttl then
            if rmFails name then
              (name, bs) :: pc.cleanExpiredCache now rmFails rest
            else
              pc.cleanExpiredCache now rmFails rest
          else
            (name, bs) :: pc.cleanExpiredCache now rmFails rest

/-! ## The request handler (main.go `proxyHandler`) -/

/-- An `http.Header` on the response-writer side: Go's `map[string][]string`,
modelled as a function from key to value slice (absent key = empty slice). -/
def RWHeader := String → List String

/-- Model of `Header().Set`: replace the value slice with a singleton. -/
def hSet (h : RWHeader) (k v : String) : RWHeader :=
  fun x => if x = k then [v] else h x

/-- Model of `Header().Add`: append to the value slice. -/
def hAdd (h : RWHeader) (k v : String) : RWHeader :=
  fun x => if x = k then h x ++ [v] else h x

/-- The empty response header map. -/
def hEmpty : RWHeader := fun _ => []

/-- The nested copy loop of main.go lines 223-227: for each upstream header
key, `Add` each of its values in order. -/
def hAddAll (h : RWHeader) (entries : GoHeader) : RWHeader :=
  entries.foldl (fun acc kv => kv.2.foldl (fun a v => hAdd a kv.1 v) acc) h

/-- The final state of an `http.ResponseWriter`: status written (200 when the
first `Write` happened without `WriteHeader`), headers, body bytes. -/
structure RespW where
  status : Nat
  headers : RWHeader
  body : List Nat

/-- Model of `http.Error(w, msg, code)`: plain-text content type, nosniff, the status
code, and the message plus a newline as the body. -/
def httpError (msg : String) (code : Nat) : RespW :=
  { status := code
    headers := hSet (hSet hEmpty "Content-Type" "text/plain; charset=utf-8")
      "X-Content-Type-Options" "nosniff"
    body := strBytes msg ++ [10] }

/-- The upstream response obtained by `client.Do` (status, headers, body). -/
structure UpstreamResp where
  status : Nat
  headers : GoHeader
  body : List Nat

/-- An inbound request as `proxyHandler` sees it: the method, the `url` query
parameter (`r.URL.Query().Get("url")` yields `""` when absent), and the
request headers. -/
structure Request where
  method : String
  urlParam : String
  headers : GoHeader

/-- The outside world during one handler call: the current time, the oracle
outcomes of `http.NewRequest` and `io.ReadAll`, the upstream call result
(`client.Do`), and whether `os.Create` fails inside `set`. -/
structure HandlerEnv where
  now : Int
  newRequestErr : Bool
  fetchResult : Except String UpstreamResp
  readBodyErr : Bool
  createErr : Bool

/-- Embedding of `ProxyCache.proxyHandler` (main.go lines 167-231): validate the `url`
parameter, derive the key, consult the cache (500 on cache error, HIT
response on a fresh hit), otherwise fetch upstream (500 on request-building
or body-read failure, 502 on transport failure), store the body (failure
logged, ignored), and answer with the upstream headers, `X-Cache: MISS`, the
upstream status and body. Returns the response and the directory state after
the call. -/
def ProxyCache.proxyHandler (pc : ProxyCache) (fs : FileSys) (r : Request)
    (env : HandlerEnv) : RespW × FileSys :=
  if r.urlParam = "" then
    (httpError "missing url parameter" 400, fs)
  else
    let cacheKey := pc.getCacheKey r.method r.urlParam r.headers
    let res := pc.get fs env.now cacheKey
    let fs1 := res.2
    match res.1.2.2 with
    | some e => (httpError ("cache error: " ++ ioErrMsg e) 500, fs1)
    | none =>
        if res.1.2.1 then
          ({ status := 200
             headers := hSet (hSet hEmpty "X-Cache" "HIT")
               "Content-Type" "application/json"
             body := res.1.1 }, fs1)
        else
          if env.newRequestErr then
            (httpError "error creating request: invalid" 500, fs1)
          else
            match env.fetchResult with
            | .error msg => (httpError ("proxy request failed: " ++ msg) 502, fs1)
            | .ok resp =>
                if env.readBodyErr then
                  (httpError "error reading response: unexpected EOF" 500, fs1)
                else
                  let setRes := pc.set fs1 env.now cacheKey resp.body env.createErr
                  ({ status := resp.status
                     headers := hSet (hAddAll hEmpty resp.headers) "X-Cache" "MISS"
                     body := resp.body }, setRes.2)

/-! ## Codec lemmas -/

theorem dropLit_append (p rest : List Nat) : dropLit p (p ++ rest) = some rest := by
  induction p with
  | nil => rfl
  | cons a p ih => simp [dropLit, ih]

theorem takeWhile_append_eq (p : Nat → Bool) (xs rest : List Nat)
    (hxs : ∀ x ∈ xs, p x = true)
    (hrest : ∀ y, rest.head? = some y → p y = false) :
    (xs ++ rest).takeWhile p = xs := by
  induction xs with
  | nil =>
    cases rest with
    | nil => rfl
    | cons y t => simp [List.takeWhile_cons, hrest y rfl]
  | cons x t ih =>
    simp only [List.cons_append, List.takeWhile_cons,
      hxs x (List.mem_cons_self x t)]
    simp [ih (fun z hz => hxs z (List.mem_cons_of_mem x hz))]

theorem dropWhile_append_eq (p : Nat → Bool) (xs rest : List Nat)
    (hxs : ∀ x ∈ xs, p x = true)
    (hrest : ∀ y, rest.head? = some y → p y = false) :
    (xs ++ rest).dropWhile p = rest := by
  induction xs with
  | nil =>
    cases rest with
    | nil => rfl
    | cons y t => simp [List.dropWhile_cons, hrest y rfl]
  | cons x t ih =>
    simp only [List.cons_append, List.dropWhile_cons,
      hxs x (List.mem_cons_self x t)]
    simp [ih (fun z hz => hxs z (List.mem_cons_of_mem x hz))]

theorem span_append_eq (p : Nat → Bool) (xs rest : List Nat)
    (hxs : ∀ x ∈ xs, p x = true)
    (hrest : ∀ y, rest.head? = some y → p y = false) :
    (xs ++ rest).span p = (xs, rest) := by
  rw [List.span_eq_take_drop, takeWhile_append_eq p xs rest hxs hrest,
    dropWhile_append_eq p xs rest hxs hrest]

theorem hexDigitChar_isHexDigit {n : Nat} (h : n < 16) :
    isHexDigit (hexDigitChar n) = true := by
  interval_cases n <;> decide

theorem hexVal_hexDigitChar {n : Nat} (h : n < 16) :
    hexVal (hexDigitChar n) = n := by
  interval_cases n <;> decide

theorem hexOfBytes_all_hex {bs : List Nat} (hb : ∀ b ∈ bs, b < 256) :
    ∀ c ∈ hexOfBytes bs, isHexDigit c = true := by
  induction bs with
  | nil => intro c hc; simp [hexOfBytes] at hc
  | cons b t ih =>
    intro c hc
    have hb0 : b < 256 := hb b (List.mem_cons_self b t)
    simp only [hexOfBytes, List.mem_cons] at hc
    rcases hc with rfl | hc
    · exact hexDigitChar_isHexDigit (by omega : b / 16 < 16)
    rcases hc with rfl | hc
    · exact hexDigitChar_isHexDigit (by omega : b % 16 < 16)
    · exact ih (fun x hx => hb x (List.mem_cons_of_mem b hx)) c hc

theorem bytesOfHex_hexOfBytes {bs : List Nat} (hb : ∀ b ∈ bs, b < 256) :
    bytesOfHex (hexOfBytes bs) = some bs := by
  induction bs with
  | nil => rfl
  | cons b t ih =>
    have hb0 : b < 256 := hb b (List.mem_cons_self b t)
    have h1 : b / 16 < 16 := by omega
    have h2 : b % 16 < 16 := by omega
    simp only [hexOfBytes, bytesOfHex, hexDigitChar_isHexDigit h1,
      hexDigitChar_isHexDigit h2, Bool.and_self, if_pos,
      ih (fun x hx => hb x (List.mem_cons_of_mem b hx)), Option.map_some]
    rw [hexVal_hexDigitChar h1, hexVal_hexDigitChar h2]
    simp only [Option.map_some', Option.some.injEq, List.cons.injEq, and_true]
    omega

theorem natDecimal_all_digits (n : Nat) : ∀ c ∈ natDecimal n, isDigit c = true := by
  intro c hc
  unfold natDecimal at hc
  by_cases h : n = 0
  · rw [if_pos h] at hc
    simp only [List.mem_singleton] at hc
    subst hc; decide
  · rw [if_neg h] at hc
    rw [List.mem_reverse, List.mem_map] at hc
    obtain ⟨d, hd, rfl⟩ := hc
    have : d < 10 := Nat.digits_lt_base (by norm_num) hd
    simp only [isDigit, Bool.decide_and, Bool.and_eq_true, decide_eq_true_eq]
    omega

theorem natDecimal_ne_nil (n : Nat) : natDecimal n ≠ [] := by
  unfold natDecimal
  by_cases h : n = 0
  · rw [if_pos h]; simp
  · rw [if_neg h]
    simp only [ne_eq, List.reverse_eq_nil_iff, List.map_eq_nil_iff]
    exact Nat.digits_ne_nil_iff_ne_zero.mpr h

theorem natDecimal_val (n : Nat) :
    Nat.ofDigits 10 (((natDecimal n).map (fun c => c - 48)).reverse) = n := by
  by_cases h : n = 0
  · subst h
    simp [natDecimal, Nat.ofDigits]
  · unfold natDecimal
    rw [if_neg h, ← List.map_reverse, List.reverse_reverse, List.map_map]
    have : ((fun c => c - 48) ∘ fun d => d + 48) = id := by
      funext d; simp
    rw [this, List.map_id, Nat.ofDigits_digits]

theorem parseNatFrom_natDecimal (n : Nat) (rest : List Nat)
    (hrest : ∀ y, rest.head? = some y → isDigit y = false) :
    parseNatFrom (natDecimal n ++ rest) = some (n, rest) := by
  unfold parseNatFrom
  rw [span_append_eq isDigit _ rest (natDecimal_all_digits n) hrest]
  simp only [if_neg (natDecimal_ne_nil n)]
  rw [natDecimal_val]

theorem parseIntFrom_intDecimal (t : Int) (rest : List Nat)
    (hrest : ∀ y, rest.head? = some y → isDigit y = false) :
    parseIntFrom (intDecimal t ++ rest) = some (t, rest) := by
  by_cases ht : t < 0
  · unfold intDecimal
    rw [if_pos ht, List.cons_append]
    rw [show parseIntFrom (45 :: (natDecimal t.natAbs ++ rest))
        = (parseNatFrom (natDecimal t.natAbs ++ rest)).map
            (fun p => (-(p.1 : Int), p.2)) from rfl,
      parseNatFrom_natDecimal t.natAbs rest hrest]
    simp only [Option.map_some', Option.some.injEq, Prod.mk.injEq, and_true]
    omega
  · obtain ⟨c, cs, hc⟩ := List.exists_cons_of_ne_nil (natDecimal_ne_nil t.natAbs)
    have hcdig : isDigit c = true := by
      apply natDecimal_all_digits
      rw [hc]; exact List.mem_cons_self c cs
    have hc45 : ¬(c = 45) := by
      simp only [isDigit, Bool.decide_and, Bool.and_eq_true, decide_eq_true_eq] at hcdig
      omega
    unfold intDecimal
    rw [if_neg ht, hc, List.cons_append]
    rw [show parseIntFrom (c :: (cs ++ rest))
        = if c = 45 then
            (parseNatFrom (cs ++ rest)).map (fun p => (-(p.1 : Int), p.2))
          else
            (parseNatFrom (c :: (cs ++ rest))).map (fun p => ((p.1 : Int), p.2))
        from rfl]
    rw [if_neg hc45]
    rw [show c :: (cs ++ rest) = natDecimal t.natAbs ++ rest from by
      rw [hc, List.cons_append]]
    rw [parseNatFrom_natDecimal t.natAbs rest hrest]
    simp only [Option.map_some', Option.some.injEq, Prod.mk.injEq, and_true]
    omega

theorem jsonDecodeItem_encodeItem (it : CacheItem) (hb : ∀ b ∈ it.data, b < 256) :
    jsonDecodeItem (jsonEncodeItem it) = some it := by
  have h34 : ∀ y : Nat,
      (strBytes "\",\"timestamp\":" ++ (intDecimal it.timestamp ++
        (strBytes "\x7d" ++ [10]))).head? = some y → isHexDigit y = false := by
    intro y hy
    rw [show strBytes "\",\"timestamp\":" = 34 :: strBytes ",\"timestamp\":" from by
      decide] at hy
    rw [List.cons_append, List.head?_cons, Option.some.injEq] at hy
    subst hy; decide
  have h125 : ∀ y : Nat,
      (strBytes "\x7d" ++ [10]).head? = some y → isDigit y = false := by
    intro y hy
    rw [show strBytes "\x7d" = [125] from by decide, List.cons_append,
      List.head?_cons, Option.some.injEq] at hy
    subst hy; decide
  have hspan := span_append_eq isHexDigit (hexOfBytes it.data)
    (strBytes "\",\"timestamp\":" ++ (intDecimal it.timestamp ++
      (strBytes "\x7d" ++ [10])))
    (hexOfBytes_all_hex hb) h34
  have hint := parseIntFrom_intDecimal it.timestamp (strBytes "\x7d" ++ [10]) h125
  unfold jsonDecodeItem jsonEncodeItem
  simp only [List.append_assoc]
  rw [dropLit_append]
  simp only [Option.bind_eq_bind', Option.some_bind']
  rw [hspan]
  simp only []
  rw [bytesOfHex_hexOfBytes hb]
  simp only [Option.bind_eq_bind', Option.some_bind']
  rw [dropLit_append]
  simp only [Option.bind_eq_bind', Option.some_bind']
  rw [hint]
  simp only [Option.bind_eq_bind', Option.some_bind']
  rw [dropLit_append]
  simp only [Option.bind_eq_bind', Option.some_bind']
  simp [dropLit]

theorem decodeCacheFile_encodeCacheFile (it : CacheItem)
    (hb : ∀ b ∈ it.data, b < 256) :
    decodeCacheFile (encodeCacheFile it) = some it := by
  unfold decodeCacheFile encodeCacheFile gzipCompress gzipMagic
  rw [show ([31, 139, 8] : List Nat) ++ jsonEncodeItem it
      = 31 :: 139 :: 8 :: jsonEncodeItem it from rfl]
  simp only [gzipDecompress, Option.some_bind']
  exact jsonDecodeItem_encodeItem it hb

/-! ## File-system lemmas -/

theorem fsLookup_cons_self (p : String) (bs : List Nat) (fs : FileSys) :
    fsLookup ((p, bs) :: fs) p = some bs := by
  simp [fsLookup, List.find?]

theorem fsLookup_nil (p : String) : fsLookup [] p = none := rfl

theorem readCacheFile_some (fs : FileSys) (path : String) (bs : List Nat)
    (it : CacheItem) (hl : fsLookup fs path = some bs)
    (hd : decodeCacheFile bs = some it) :
    readCacheFile fs path = .ok it := by
  obtain ⟨plain, hgz, hjs⟩ :
      ∃ plain, gzipDecompress bs = some plain ∧ jsonDecodeItem plain = some it := by
    unfold decodeCacheFile at hd
    cases hgz : gzipDecompress bs with
    | none => rw [hgz] at hd; simp at hd
    | some plain =>
        rw [hgz] at hd
        simp only [Option.some_bind'] at hd
        exact ⟨plain, rfl, hd⟩
  simp only [readCacheFile, hl, hgz, hjs]

theorem readCacheFile_none (fs : FileSys) (path : String)
    (hl : fsLookup fs path = none) :
    readCacheFile fs path = .error .notExist := by
  simp only [readCacheFile, hl]

/-! ## Claims -/

/-- C1: for every byte payload and key, `set(k, P)` immediately followed by
`get(k)` (still within the TTL) returns exactly the payload `P`, and the
stored file holds the timestamp of the `set` call (hence a timestamp within
the call window): the gzip/JSON write pipeline and the read pipeline are
mutually inverse, with no data loss. -/
theorem set_then_get_roundtrip (pc : ProxyCache) (fs : FileSys) (key : String)
    (data : List Nat) (tSet tGet : Int)
    (hb : ∀ b ∈ data, b < 256)
    (hwin : tGet - tSet ≤ pc.ttl) :
    pc.get (pc.set fs tSet key data false).2 tGet key
      = ((data, true, none), (pc.set fs tSet key data false).2) ∧
    readCacheFile (pc.set fs tSet key data false).2 (pc.getCachePath key)
      = .ok ⟨data, tSet⟩ := by
  have hread : readCacheFile (pc.set fs tSet key data false).2 (pc.getCachePath key)
      = .ok ⟨data, tSet⟩ := by
    rw [show (pc.set fs tSet key data false).2
        = fsInsert fs (pc.getCachePath key) (encodeCacheFile ⟨data, tSet⟩) from rfl]
    exact readCacheFile_some _ _ _ _ (fsLookup_cons_self _ _ _)
      (decodeCacheFile_encodeCacheFile ⟨data, tSet⟩ hb)
  refine ⟨?_, hread⟩
  simp only [ProxyCache.get, hread]
  rw [if_neg (by omega : ¬(tGet - tSet > pc.ttl))]

/-- Witness for C1 at payload `[104, 105]`, key `"k"`, TTL 3600, write at
time 0 and read at time 1. -/
theorem set_then_get_roundtrip_witness :
    (∀ b ∈ [104, 105], b < 256) ∧ (1 : Int) - 0 ≤ (3600 : Int) ∧
    ((⟨"cache", 3600⟩ : ProxyCache).get
        ((⟨"cache", 3600⟩ : ProxyCache).set [] 0 "k" [104, 105] false).2 1 "k"
      = (([104, 105], true, none),
         ((⟨"cache", 3600⟩ : ProxyCache).set [] 0 "k" [104, 105] false).2)) :=
  ⟨by decide, by decide,
    (set_then_get_roundtrip ⟨"cache", 3600⟩ [] "k" [104, 105] 0 1
      (by decide) (by decide)).1⟩

theorem readCacheFile_error_inv (fs : FileSys) (path : String) (e : IOErr)
    (h : readCacheFile fs path = .error e) (hne : e ≠ .notExist) :
    ∃ bs, fsLookup fs path = some bs ∧ decodeCacheFile bs = none := by
  unfold readCacheFile at h
  cases hl : fsLookup fs path with
  | none => rw [hl] at h; simp at h; exact absurd h.symm hne
  | some bs =>
      simp only [hl] at h
      refine ⟨bs, rfl, ?_⟩
      cases hgz : gzipDecompress bs with
      | none => simp [decodeCacheFile, hgz]
      | some plain =>
          simp only [hgz] at h
          cases hjs : jsonDecodeItem plain with
          | none => simp [decodeCacheFile, hgz, hjs]
          | some it => simp [hjs] at h

/-- C3: staleness is the strict comparison `now - storedAt > ttl` in both the
read path and the eviction sweep: an entry stored at time `t0` is still
reported fresh at `now = t0 + TTL` (a hit in `get`, kept by
`cleanExpiredCache`) and is stale at every `now > t0 + TTL` (a miss that
removes the file in `get`, removed by `cleanExpiredCache`). -/
theorem staleness_boundary_strict (pc : ProxyCache) (fs : FileSys)
    (key name : String) (it : CacheItem)
    (hb : ∀ b ∈ it.data, b < 256)
    (hl : fsLookup fs (pc.getCachePath key) = some (encodeCacheFile it)) :
    (pc.get fs (it.timestamp + pc.ttl) key = ((it.data, true, none), fs)) ∧
    (∀ now : Int, now > it.timestamp + pc.ttl →
      pc.get fs now key = (([], false, none), fsErase fs (pc.getCachePath key))) ∧
    (pc.cleanExpiredCache (it.timestamp + pc.ttl) (fun _ => false)
        [(name, encodeCacheFile it)] = [(name, encodeCacheFile it)]) ∧
    (∀ now : Int, now > it.timestamp + pc.ttl →
      pc.cleanExpiredCache now (fun _ => false) [(name, encodeCacheFile it)] = []) := by
  have hread : readCacheFile fs (pc.getCachePath key) = .ok it :=
    readCacheFile_some _ _ _ _ hl (decodeCacheFile_encodeCacheFile it hb)
  refine ⟨?_, ?_, ?_, ?_⟩
  · simp only [ProxyCache.get, hread]
    rw [if_neg (by omega : ¬(it.timestamp + pc.ttl - it.timestamp > pc.ttl))]
  · intro now hnow
    simp only [ProxyCache.get, hread]
    rw [if_pos (by omega : now - it.timestamp > pc.ttl)]
  · simp only [ProxyCache.cleanExpiredCache, decodeCacheFile_encodeCacheFile it hb]
    rw [if_neg (by omega : ¬(it.timestamp + pc.ttl - it.timestamp > pc.ttl))]
  · intro now hnow
    simp only [ProxyCache.cleanExpiredCache, decodeCacheFile_encodeCacheFile it hb]
    rw [if_pos (by omega : now - it.timestamp > pc.ttl)]
    rfl

/-- Witness for C3 at TTL 10, entry stored at time 0, read at times 10
(boundary, fresh) and 11 (stale). -/
theorem staleness_boundary_strict_witness :
    ((⟨"cache", 10⟩ : ProxyCache).get
        [(("cache/k.gz" : String), encodeCacheFile ⟨[1], 0⟩)] 10 "k"
      = (([1], true, none), [(("cache/k.gz" : String), encodeCacheFile ⟨[1], 0⟩)])) ∧
    ((⟨"cache", 10⟩ : ProxyCache).get
        [(("cache/k.gz" : String), encodeCacheFile ⟨[1], 0⟩)] 11 "k"
      = (([], false, none), [])) ∧
    ((⟨"cache", 10⟩ : ProxyCache).cleanExpiredCache 11 (fun _ => false)
        [("n", encodeCacheFile ⟨[1], 0⟩)] = []) := by
  have h := staleness_boundary_strict ⟨"cache", 10⟩
    [(("cache/k.gz" : String), encodeCacheFile ⟨[1], 0⟩)] "k" "n" ⟨[1], 0⟩
    (by decide) (by decide)
  refine ⟨h.1, ?_, h.2.2.2 11 (by decide)⟩
  have h2 := h.2.1 11 (by decide)
  rw [h2]
  rfl

/-- C5: one sweep cycle of `cleanExpiredCache` keeps a file byte-identical
exactly when it fails to decode (read error: logged and skipped), is fresh,
or its `os.Remove` fails (logged and skipped); every stale decodable file
whose removal succeeds is removed. In particular, with all entries readable
and all removals succeeding, the sweep removes exactly the stale entries and
leaves the rest untouched, and a per-entry failure never aborts the cycle. -/
theorem cleanExpiredCache_filter (pc : ProxyCache) (now : Int)
    (rmFails : String → Bool) (fs : FileSys) :
    pc.cleanExpiredCache now rmFails fs
      = fs.filter (fun kv =>
          match decodeCacheFile kv.2 with
          | none => true
          | some it =>
              if now - it.timestamp > pc.ttl then rmFails kv.1 else true) := by
  induction fs with
  | nil => rfl
  | cons kv rest ih =>
      obtain ⟨name, bs⟩ := kv
      simp only [ProxyCache.cleanExpiredCache, List.filter_cons]
      cases hd : decodeCacheFile bs with
      | none => simp [hd, ih]
      | some it =>
          simp only [hd]
          by_cases hstale : now - it.timestamp > pc.ttl
          · cases hrm : rmFails name with
            | true => simp [hstale, hrm, ih]
            | false => simp [hstale, hrm, ih]
          · simp [hstale, ih]

/-- C7: a missing cache file is the miss outcome `(nil, false, nil)` of
`get`, not an error; and whenever `get` does return an error, the file was
present and failed to decode (a storage fault other than non-existence). -/
theorem get_absent_vs_error (pc : ProxyCache) (fs : FileSys) (now : Int)
    (key : String) :
    (fsLookup fs (pc.getCachePath key) = none →
      pc.get fs now key = (([], false, none), fs)) ∧
    (∀ d f e fs1, pc.get fs now key = ((d, f, some e), fs1) →
      ∃ bs, fsLookup fs (pc.getCachePath key) = some bs ∧
        decodeCacheFile bs = none) := by
  constructor
  · intro hl
    simp only [ProxyCache.get, readCacheFile_none fs _ hl]
    simp
  · intro d f e fs1 hget
    simp only [ProxyCache.get] at hget
    cases hr : readCacheFile fs (pc.getCachePath key) with
    | error err =>
        by_cases hne : err = .notExist
        · subst hne
          simp [hr] at hget
        · exact readCacheFile_error_inv fs _ err hr hne
    | ok it =>
        by_cases hstale : now - it.timestamp > pc.ttl
        · simp [hr, hstale] at hget
        · simp [hr, hstale] at hget

/-- Witness for C7: `get` on an empty cache directory. -/
theorem get_absent_vs_error_witness :
    (⟨"cache", 3600⟩ : ProxyCache).get [] 0 "k" = (([], false, none), []) :=
  (get_absent_vs_error ⟨"cache", 3600⟩ [] 0 "k").1 rfl

theorem strBytes_append (a b : String) :
    strBytes (a ++ b) = strBytes a ++ strBytes b := by
  unfold strBytes
  rw [String.congr_append a b]
  simp

/-- C4 counterexample: the distinct pairs `("GET", "X")` and `("GE", "TX")`
of non-empty strings receive the same cache key, because `getCacheKey`
hashes the bare concatenation `method ++ url` with no separator. -/
theorem getCacheKey_collision :
    (("GET", "X") : String × String) ≠ ("GE", "TX") ∧
    "GET" ≠ "" ∧ "X" ≠ "" ∧ "GE" ≠ "" ∧ "TX" ≠ "" ∧
    (⟨"cache", 3600⟩ : ProxyCache).getCacheKey "GET" "X" []
      = (⟨"cache", 3600⟩ : ProxyCache).getCacheKey "GE" "TX" [] := by
  refine ⟨by decide, by decide, by decide, by decide, by decide, ?_⟩
  unfold ProxyCache.getCacheKey
  exact congrArg sha256hex (by decide)

/-- C4 amended: the cache key is a function of the concatenation
`method ++ url` alone; any two (method, url) pairs whose concatenations
coincide — including distinct pairs such as `("GET", "X")` and
`("GE", "TX")` — receive the same key, because the two strings are written
into the SHA-256 state back to back with no separator. -/
theorem getCacheKey_eq_of_concat_eq (pc : ProxyCache) (m1 u1 m2 u2 : String)
    (h1 h2 : GoHeader) (h : m1 ++ u1 = m2 ++ u2) :
    pc.getCacheKey m1 u1 h1 = pc.getCacheKey m2 u2 h2 := by
  unfold ProxyCache.getCacheKey
  rw [← strBytes_append, ← strBytes_append, h]

/-- Witness for the amended C4 at the colliding pairs `("GET", "X")` and
`("GE", "TX")`. -/
theorem getCacheKey_eq_of_concat_eq_witness :
    ("GET" ++ "X" : String) = "GE" ++ "TX" ∧
    (⟨"cache", 3600⟩ : ProxyCache).getCacheKey "GET" "X" []
      = (⟨"cache", 3600⟩ : ProxyCache).getCacheKey "GE" "TX" [("A", ["b"])] :=
  ⟨by decide,
    getCacheKey_eq_of_concat_eq ⟨"cache", 3600⟩ "GET" "X" "GE" "TX" []
      [("A", ["b"])] (by decide)⟩

/-- C9: `getCacheKey` is a pure, deterministic function of its arguments:
two calls with identical method and URL strings (whatever the header
arguments) return the identical key, and the call touches no state. -/
theorem getCacheKey_deterministic (pc : ProxyCache) (m1 u1 m2 u2 : String)
    (h1 h2 : GoHeader) (hm : m1 = m2) (hu : u1 = u2) :
    pc.getCacheKey m1 u1 h1 = pc.getCacheKey m2 u2 h2 := by
  subst hm
  subst hu
  rfl

/-- Witness for C9 at method `"GET"` and URL `"http://a"` with two different
header maps. -/
theorem getCacheKey_deterministic_witness :
    ("GET" : String) = "GET" ∧ ("http://a" : String) = "http://a" ∧
    (⟨"cache", 3600⟩ : ProxyCache).getCacheKey "GET" "http://a" []
      = (⟨"cache", 3600⟩ : ProxyCache).getCacheKey "GET" "http://a"
          [("Authorization", ["secret"])] :=
  ⟨rfl, rfl,
    getCacheKey_deterministic ⟨"cache", 3600⟩ "GET" "http://a" "GET" "http://a"
      [] [("Authorization", ["secret"])] rfl rfl⟩

/-- C10: the request headers never influence the cache key: the `headers`
parameter of `getCacheKey` is accepted but ignored, so two requests
differing only in their headers map to the same cache entry. -/
theorem getCacheKey_ignores_headers (pc : ProxyCache) (m u : String)
    (h1 h2 : GoHeader) :
    pc.getCacheKey m u h1 = pc.getCacheKey m u h2 := rfl

theorem get_miss_of_absent (pc : ProxyCache) (fs : FileSys) (now : Int)
    (key : String)
    (hl : fsLookup fs (pc.getCachePath key) = none) :
    pc.get fs now key = (([], false, none), fs) := by
  simp only [ProxyCache.get, readCacheFile_none fs _ hl]
  simp

theorem get_hit_of_fresh (pc : ProxyCache) (fs : FileSys) (now : Int)
    (key : String) (it : CacheItem)
    (hr : readCacheFile fs (pc.getCachePath key) = .ok it)
    (hfresh : ¬(now - it.timestamp > pc.ttl)) :
    pc.get fs now key = ((it.data, true, none), fs) := by
  simp only [ProxyCache.get, hr]
  rw [if_neg hfresh]

theorem get_error_of_read_error (pc : ProxyCache) (fs : FileSys) (now : Int)
    (key : String) (e : IOErr)
    (hr : readCacheFile fs (pc.getCachePath key) = .error e)
    (hne : e ≠ .notExist) :
    pc.get fs now key = (([], false, some e), fs) := by
  simp only [ProxyCache.get, hr]
  rw [if_neg hne]

/-- C6: when a request reaches the Store step after a successful upstream
fetch, a failing `set` (here: `os.Create` fails) is only logged: the handler
still copies the upstream headers, sets `X-Cache: MISS`, and returns the
upstream status code and fetched body; the directory is left unchanged. -/
theorem proxyHandler_store_failure_ignored (pc : ProxyCache) (fs : FileSys)
    (r : Request) (env : HandlerEnv) (resp : UpstreamResp)
    (hurl : r.urlParam ≠ "")
    (hmiss : fsLookup fs
      (pc.getCachePath (pc.getCacheKey r.method r.urlParam r.headers)) = none)
    (hnr : env.newRequestErr = false)
    (hfetch : env.fetchResult = .ok resp)
    (hrb : env.readBodyErr = false)
    (hcreate : env.createErr = true) :
    pc.proxyHandler fs r env
      = ({ status := resp.status,
           headers := hSet (hAddAll hEmpty resp.headers) "X-Cache" "MISS",
           body := resp.body }, fs) := by
  have hget := get_miss_of_absent pc fs env.now
    (pc.getCacheKey r.method r.urlParam r.headers) hmiss
  simp [ProxyCache.proxyHandler, if_neg hurl, hget, hnr, hfetch, hrb, hcreate,
    ProxyCache.set]

/-- Witness for C6: a miss on an empty directory, a successful upstream
fetch, and a failing `os.Create`. -/
theorem proxyHandler_store_failure_ignored_witness :
    ("http://u" : String) ≠ "" ∧
    ((⟨"cache", 3600⟩ : ProxyCache).proxyHandler [] ⟨"GET", "http://u", []⟩
        ⟨0, false, .ok ⟨200, [("Server", ["x"])], [42]⟩, false, true⟩
      = ({ status := 200,
           headers := hSet (hAddAll hEmpty [("Server", ["x"])]) "X-Cache" "MISS",
           body := [42] }, [])) :=
  ⟨by decide,
    proxyHandler_store_failure_ignored ⟨"cache", 3600⟩ [] ⟨"GET", "http://u", []⟩
      ⟨0, false, .ok ⟨200, [("Server", ["x"])], [42]⟩, false, true⟩
      ⟨200, [("Server", ["x"])], [42]⟩
      (by decide) rfl rfl rfl rfl rfl⟩

/-- C8: a request served from a fresh cache entry gets `X-Cache: HIT`,
`Content-Type` forced to `application/json`, the success status 200, and a
body equal to exactly the stored payload; a request served by a fresh
upstream fetch gets `X-Cache: MISS`. -/
theorem proxyHandler_hit_miss_markers (pc : ProxyCache) (fs : FileSys)
    (r : Request) (env : HandlerEnv) (it : CacheItem)
    (hurl : r.urlParam ≠ "")
    (hb : ∀ b ∈ it.data, b < 256) :
    (fsLookup fs
        (pc.getCachePath (pc.getCacheKey r.method r.urlParam r.headers))
        = some (encodeCacheFile it) →
      ¬(env.now - it.timestamp > pc.ttl) →
      pc.proxyHandler fs r env
        = ({ status := 200,
             headers := hSet (hSet hEmpty "X-Cache" "HIT")
               "Content-Type" "application/json",
             body := it.data }, fs)) ∧
    (∀ resp : UpstreamResp,
      fsLookup fs
        (pc.getCachePath (pc.getCacheKey r.method r.urlParam r.headers)) = none →
      env.newRequestErr = false →
      env.fetchResult = .ok resp →
      env.readBodyErr = false →
      (pc.proxyHandler fs r env).1.headers "X-Cache" = ["MISS"] ∧
      (pc.proxyHandler fs r env).1.status = resp.status ∧
      (pc.proxyHandler fs r env).1.body = resp.body) := by
  constructor
  · intro hl hfresh
    have hread : readCacheFile fs
        (pc.getCachePath (pc.getCacheKey r.method r.urlParam r.headers))
        = .ok it :=
      readCacheFile_some _ _ _ _ hl (decodeCacheFile_encodeCacheFile it hb)
    have hget := get_hit_of_fresh pc fs env.now
      (pc.getCacheKey r.method r.urlParam r.headers) it hread hfresh
    simp [ProxyCache.proxyHandler, if_neg hurl, hget]
  · intro resp hl hnr hfetch hrb
    have hget := get_miss_of_absent pc fs env.now
      (pc.getCacheKey r.method r.urlParam r.headers) hl
    have hh : pc.proxyHandler fs r env
        = ({ status := resp.status,
             headers := hSet (hAddAll hEmpty resp.headers) "X-Cache" "MISS",
             body := resp.body },
           (pc.set fs env.now (pc.getCacheKey r.method r.urlParam r.headers)
             resp.body env.createErr).2) := by
      simp [ProxyCache.proxyHandler, if_neg hurl, hget, hnr, hfetch, hrb]
    rw [hh]
    refine ⟨?_, rfl, rfl⟩
    simp [hSet]

/-- Witness for C8 (hit side): a fresh entry with payload `[7]` stored at
time 0, looked up at time 5 with TTL 10. -/
theorem proxyHandler_hit_miss_markers_witness :
    ("http://u" : String) ≠ "" ∧
    ((⟨"cache", 10⟩ : ProxyCache).proxyHandler
        [((⟨"cache", 10⟩ : ProxyCache).getCachePath
            ((⟨"cache", 10⟩ : ProxyCache).getCacheKey "GET" "http://u" []),
          encodeCacheFile ⟨[7], 0⟩)]
        ⟨"GET", "http://u", []⟩ ⟨5, false, .error "down", false, false⟩
      = ({ status := 200,
           headers := hSet (hSet hEmpty "X-Cache" "HIT")
             "Content-Type" "application/json",
           body := [7] },
         [((⟨"cache", 10⟩ : ProxyCache).getCachePath
             ((⟨"cache", 10⟩ : ProxyCache).getCacheKey "GET" "http://u" []),
           encodeCacheFile ⟨[7], 0⟩)])) :=
  ⟨by decide,
    (proxyHandler_hit_miss_markers ⟨"cache", 10⟩
        [((⟨"cache", 10⟩ : ProxyCache).getCachePath
            ((⟨"cache", 10⟩ : ProxyCache).getCacheKey "GET" "http://u" []),
          encodeCacheFile ⟨[7], 0⟩)]
        ⟨"GET", "http://u", []⟩ ⟨5, false, .error "down", false, false⟩
        ⟨[7], 0⟩ (by decide) (by decide)).1
      (fsLookup_cons_self _ _ _) (by decide)⟩

/-- C2 counterexample: with a corrupt one-byte cache file (it fails gzip
decoding) and a healthy upstream, the handler answers HTTP 500 with a
"cache error" body and never serves the upstream response — the decode
failure is not degraded to a cache miss. -/
theorem corrupt_cache_file_fails_request :
    decodeCacheFile [0] = none ∧
    ((⟨"cache", 3600⟩ : ProxyCache).proxyHandler
        [((⟨"cache", 3600⟩ : ProxyCache).getCachePath
            ((⟨"cache", 3600⟩ : ProxyCache).getCacheKey "GET" "http://u" []),
          [0])]
        ⟨"GET", "http://u", []⟩ ⟨0, false, .ok ⟨200, [], [42]⟩, false, false⟩).1
      = httpError ("cache error: " ++ ioErrMsg .gzipErr) 500 ∧
    ((⟨"cache", 3600⟩ : ProxyCache).proxyHandler
        [((⟨"cache", 3600⟩ : ProxyCache).getCachePath
            ((⟨"cache", 3600⟩ : ProxyCache).getCacheKey "GET" "http://u" []),
          [0])]
        ⟨"GET", "http://u", []⟩ ⟨0, false, .ok ⟨200, [], [42]⟩, false, false⟩).1.status
      = 500 := by
  refine ⟨rfl, ?_, ?_⟩ <;>
  · have hl := fsLookup_cons_self
      ((⟨"cache", 3600⟩ : ProxyCache).getCachePath
        ((⟨"cache", 3600⟩ : ProxyCache).getCacheKey "GET" "http://u" []))
      [0] []
    have hr : readCacheFile
        [((⟨"cache", 3600⟩ : ProxyCache).getCachePath
            ((⟨"cache", 3600⟩ : ProxyCache).getCacheKey "GET" "http://u" []),
          [0])]
        ((⟨"cache", 3600⟩ : ProxyCache).getCachePath
          ((⟨"cache", 3600⟩ : ProxyCache).getCacheKey "GET" "http://u" []))
        = .error .gzipErr := by
      simp only [readCacheFile, hl]
      rfl
    have hget := get_error_of_read_error (⟨"cache", 3600⟩ : ProxyCache) _ 0
      ((⟨"cache", 3600⟩ : ProxyCache).getCacheKey "GET" "http://u" [])
      .gzipErr hr (by decide)
    simp [ProxyCache.proxyHandler, hget, httpError]

/-- C2 amended: a cache read that fails for any reason other than the file
being absent (a corrupt or truncated file that fails gzip or JSON decoding)
is returned as an error by `get`, and the handler then fails the request
with HTTP 500 ("cache error: ...") without contacting the upstream; only
the background sweep (`cleanExpiredCache`) logs such a file and moves on.
(The spec's claim that the request path degrades this to a logged miss does
not hold.) -/
theorem proxyHandler_corrupt_read_is_500 (pc : ProxyCache) (fs : FileSys)
    (r : Request) (env : HandlerEnv) (e : IOErr)
    (hurl : r.urlParam ≠ "")
    (hr : readCacheFile fs
      (pc.getCachePath (pc.getCacheKey r.method r.urlParam r.headers))
      = .error e)
    (hne : e ≠ .notExist) :
    pc.proxyHandler fs r env
      = (httpError ("cache error: " ++ ioErrMsg e) 500, fs) := by
  have hget := get_error_of_read_error pc fs env.now
    (pc.getCacheKey r.method r.urlParam r.headers) e hr hne
  simp [ProxyCache.proxyHandler, if_neg hurl, hget]

/-- Witness for the amended C2: the corrupt one-byte cache file again. -/
theorem proxyHandler_corrupt_read_is_500_witness :
    ("http://u" : String) ≠ "" ∧
    ((⟨"cache", 3600⟩ : ProxyCache).proxyHandler
        [((⟨"cache", 3600⟩ : ProxyCache).getCachePath
            ((⟨"cache", 3600⟩ : ProxyCache).getCacheKey "GET" "http://u" []),
          [0])]
        ⟨"GET", "http://u", []⟩ ⟨0, false, .ok ⟨200, [], [42]⟩, false, false⟩
      = (httpError ("cache error: " ++ ioErrMsg .gzipErr) 500,
         [((⟨"cache", 3600⟩ : ProxyCache).getCachePath
             ((⟨"cache", 3600⟩ : ProxyCache).getCacheKey "GET" "http://u" []),
           [0])])) :=
  ⟨by decide,
    proxyHandler_corrupt_read_is_500 ⟨"cache", 3600⟩
      [((⟨"cache", 3600⟩ : ProxyCache).getCachePath
          ((⟨"cache", 3600⟩ : ProxyCache).getCacheKey "GET" "http://u" []),
        [0])]
      ⟨"GET", "http://u", []⟩ ⟨0, false, .ok ⟨200, [], [42]⟩, false, false⟩
      .gzipErr (by decide)
      (by simp only [readCacheFile,
            fsLookup_cons_self
              ((⟨"cache", 3600⟩ : ProxyCache).getCachePath
                ((⟨"cache", 3600⟩ : ProxyCache).getCacheKey "GET" "http://u" []))
              [0] []]
          rfl)
      (by decide)⟩
